import Mathlib

/-!
Shallow embedding of the transaction and portfolio ledger
(`TransactionManager` in `transaction_manager.py`, plus the
`delete_investment` tool in `finance_agent.py`).

Modelling conventions:
* Monetary amounts, share quantities and prices are rationals (`ℚ`);
  the source uses Python floats, whose arithmetic on the values the
  claims quantify over is exact decimal arithmetic.
* Python string methods `.lower()`, `.upper()`, `.strip()` are embedded
  character-by-character so that concrete instances reduce.
* `datetime.strptime(s, "%Y-%m-%d")` is embedded as `parseDate`,
  mirroring CPython's field patterns: exactly-4-digit year with
  year >= 1, 1-2 digit month in 1..12, day of 1-2 digits or a
  space-padded single digit (`%d` alone allows the `' 5'` form), day
  range checked against the calendar month (leap years included);
  nothing else is accepted.  Digits are ASCII, as in the rest of the
  string handling here.
* Persistence (`_save_transactions` / `_save_investments`) is a no-op in
  the embedding: the claims are about the in-memory stores.
* Division by zero in `ℚ` yields `0`, where numpy would yield `inf`/`NaN`;
  at every concrete input used below the surrounding statement is
  insensitive to this difference (both sides make the claim in question
  false or true alike), and it is noted where relevant.
-/

/-- Python `str.lower()` on the character sequence. -/
def lower (s : String) : String := ⟨s.data.map Char.toLower⟩

/-- Python `str.upper()` on the character sequence. -/
def upper (s : String) : String := ⟨s.data.map Char.toUpper⟩

/-- Python `str.strip()`: drop whitespace from both ends. -/
def strip (s : String) : String :=
  ⟨((s.data.dropWhile Char.isWhitespace).reverse.dropWhile Char.isWhitespace).reverse⟩

/-- A calendar date (year, month, day), as validated by
`datetime.strptime(date, "%Y-%m-%d")` in the source. -/
structure Date where
  y : Nat
  m : Nat
  d : Nat
deriving DecidableEq, Repr

/-- Total order key used for the date comparisons `df['date'] >= start`,
`df['date'] <= end` and `sort_values('date')`: time-of-day is always
zero in the stored data, so day granularity suffices. -/
def Date.key (dt : Date) : Nat := dt.y * 10000 + dt.m * 100 + dt.d

/-- Gregorian leap-year test, as used by `datetime`. -/
def isLeap (y : Nat) : Bool := y % 4 = 0 && (y % 100 ≠ 0 || y % 400 = 0)

/-- Number of days of month `m` in year `y` (`datetime` calendar). -/
def daysInMonth (y m : Nat) : Nat :=
  if m = 2 then (if isLeap y then 29 else 28)
  else if m = 4 ∨ m = 6 ∨ m = 9 ∨ m = 11 then 30
  else 31

/-- Split a character list on `'-'` separators. -/
def splitDash : List Char → List (List Char)
  | [] => [[]]
  | c :: rest =>
    if c = '-' then [] :: splitDash rest
    else
      match splitDash rest with
      | [] => [[c]]
      | g :: gs => (c :: g) :: gs

/-- Decimal value of a digit list. -/
def digitsToNat (cs : List Char) : Nat :=
  cs.foldl (fun n c => n * 10 + (c.toNat - '0'.toNat)) 0

/-- The `%d` field pattern of CPython's `strptime`,
`3[01]|[12]\d|0[1-9]|[1-9]| [1-9]`: a two-digit day 01..31 (`00` is not
matched), a single digit 1..9, or a space-padded single digit
`' 1'..' 9'`.  Returns the day value on a match. -/
def parseDayToken : List Char → Option Nat
  | [c] => if c.isDigit ∧ c ≠ '0' then some (c.toNat - '0'.toNat) else none
  | [c1, c2] =>
    if c1 = ' ' ∧ c2.isDigit ∧ c2 ≠ '0' then some (c2.toNat - '0'.toNat)
    else if c1.isDigit ∧ c2.isDigit ∧
        1 ≤ (c1.toNat - '0'.toNat) * 10 + (c2.toNat - '0'.toNat) ∧
        (c1.toNat - '0'.toNat) * 10 + (c2.toNat - '0'.toNat) ≤ 31 then
      some ((c1.toNat - '0'.toNat) * 10 + (c2.toNat - '0'.toNat))
    else none
  | _ => none

/-- `datetime.strptime(s, "%Y-%m-%d")`: three dash-separated fields —
`%Y` is exactly four digits (`\d\d\d\d`) naming a year ≥ 1 (`datetime`
rejects year 0), `%m` is `1[0-2]|0[1-9]|[1-9]` (1-2 digits, value
1..12), `%d` is `parseDayToken` — and the day must be in range for the
month, or the `datetime` constructor raises.  `none` models the
`ValueError` raised on any other input (splitting on the dashes is
equivalent to the sequential regex match here because the field
patterns accept no dash). -/
def parseDate (s : String) : Option Date :=
  match splitDash s.data with
  | [ys, ms, ds] =>
    if ys.all Char.isDigit ∧ ys.length = 4 ∧ 1 ≤ digitsToNat ys ∧
        ms.all Char.isDigit ∧ 1 ≤ ms.length ∧ ms.length ≤ 2 ∧
        1 ≤ digitsToNat ms ∧ digitsToNat ms ≤ 12 then
      match parseDayToken ds with
      | none => none
      | some d =>
        if 1 ≤ d ∧ d ≤ daysInMonth (digitsToNat ys) (digitsToNat ms) then
          some ⟨digitsToNat ys, digitsToNat ms, d⟩
        else none
    else none
  | _ => none

/-- Resolution of an optional date argument: `None` defaults to the
current calendar date (`datetime.now().strftime('%Y-%m-%d')`), a given
string is validated by `strptime`.  The current date is passed in
explicitly as `today`. -/
def resolveDate (date : Option String) (today : Date) : Option Date :=
  match date with
  | none => some today
  | some s => parseDate s

/-- One row of the transaction store (`transactions.csv`). -/
structure Transaction where
  id : Nat
  date : Date
  ttype : String
  category : String
  amount : ℚ
  description : String
  payment_method : String
deriving DecidableEq, Repr

/-- One row of the investment store (`investments.csv`). -/
structure Investment where
  id : Nat
  symbol : String
  quantity : ℚ
  purchase_price : ℚ
  purchase_date : Date
  total_cost : ℚ
deriving DecidableEq, Repr

/-- The in-memory state owned by `TransactionManager`. -/
structure State where
  transactions : List Transaction
  investments : List Investment
deriving DecidableEq, Repr

/-- The empty state a fresh manager starts from (no CSV files on disk). -/
def initialState : State := ⟨[], []⟩

/-- Body of `add_transaction` after the type check and date validation
have succeeded: coerce the amount to its absolute value
(`amount = abs(float(amount))`), assign id `len(self.transactions) + 1`,
and append.  (Inside `add_investment` the nested `add_transaction` call
is made with type `'expense'` and the already-validated purchase date,
so both of its checks succeed; it is embedded as a direct call to this
function.) -/
def add_transaction_validated (txs : List Transaction) (t category : String)
    (amount : ℚ) (description : String) (dt : Date) (payment_method : String) :
    List Transaction × Transaction :=
  let amt := |amount|
  let tx : Transaction := ⟨txs.length + 1, dt, t, category, amt, description, payment_method⟩
  (txs ++ [tx], tx)

/-- `TransactionManager.add_transaction`.  Returns the new store and
either the created record or the caller-facing error string (every
exception is caught and stringified in the source, so the function is
total). -/
def add_transaction (txs : List Transaction) (transaction_type category : String)
    (amount : ℚ) (description : String) (date : Option String) (today : Date)
    (payment_method : String) : List Transaction × Except String Transaction :=
  let t := lower transaction_type
  if t = "income" ∨ t = "expense" then
    match resolveDate date today with
    | none => (txs, Except.error "Error: Invalid input - bad date")
    | some dt =>
      ((add_transaction_validated txs t category amount description dt payment_method).1,
       Except.ok (add_transaction_validated txs t category amount description dt payment_method).2)
  else (txs, Except.error "Error: Transaction type must be income or expense")

/-- `TransactionManager.delete_transaction`: keep the rows whose id
differs (`self.transactions[self.transactions['id'] != transaction_id]`)
and report whether the row count shrank. -/
def delete_transaction (txs : List Transaction) (tid : Nat) : List Transaction × Bool :=
  let remaining := txs.filter (fun tx => decide (tx.id ≠ tid))
  (remaining, decide (remaining.length < txs.length))

/-- `TransactionManager.get_transactions`: AND the four optional
filters, sort by date descending, truncate to `limit` rows.  The source
sorts with an unstable pandas sort and the spec leaves equal-date order
unspecified; insertion sort is one admissible resolution. -/
def get_transactions (txs : List Transaction) (transaction_type category : Option String)
    (start_date end_date : Option Date) (limit : Nat) : List Transaction :=
  let df := txs
  let df := match transaction_type with
    | some t => df.filter (fun tx => decide (tx.ttype = lower t))
    | none => df
  let df := match category with
    | some c => df.filter (fun tx => decide (tx.category = c))
    | none => df
  let df := match start_date with
    | some s => df.filter (fun tx => decide (s.key ≤ tx.date.key))
    | none => df
  let df := match end_date with
    | some e => df.filter (fun tx => decide (tx.date.key ≤ e.key))
    | none => df
  (List.insertionSort (fun a b => b.date.key ≤ a.date.key) df).take limit

/-- `TransactionManager.get_summary`, with the returned dict embedded as
an association list (counts are cast into `ℚ` so the dict is
homogeneous).  Note the source returns only four keys on an empty
filtered set and six keys otherwise. -/
def get_summary (txs : List Transaction) (start_date end_date : Option Date) :
    List (String × ℚ) :=
  let df := get_transactions txs none none start_date end_date 999999
  if df.length = 0 then
    [("total_income", 0), ("total_expenses", 0), ("net", 0), ("transaction_count", 0)]
  else
    let income := ((df.filter (fun tx => decide (tx.ttype = "income"))).map Transaction.amount).sum
    let expenses := ((df.filter (fun tx => decide (tx.ttype = "expense"))).map Transaction.amount).sum
    [("total_income", income), ("total_expenses", expenses), ("net", income - expenses),
     ("transaction_count", (df.length : ℚ)),
     ("income_count", ((df.filter (fun tx => decide (tx.ttype = "income"))).length : ℚ)),
     ("expense_count", ((df.filter (fun tx => decide (tx.ttype = "expense"))).length : ℚ))]

/-- Round to 2 decimal places, as `pandas.Series.round(2)` does on the
percentage column.  (`round` here rounds halves up while numpy rounds
halves to even; both are within `1/200` of the argument, which is all
any statement below uses, and no concrete input below is a tie.) -/
def round2 (x : ℚ) : ℚ := (round (100 * x) : ℤ) / 100

/-- One row of the `get_spending_by_category` result frame. -/
structure CatRow where
  category : String
  total : ℚ
  count : Nat
  percentage : ℚ
deriving DecidableEq, Repr

/-- The `groupby('category').agg({'amount': ['sum', 'count']})` step:
one `(category, total, count)` triple per distinct category of the
filtered frame. -/
def categoryRows (df : List Transaction) : List (String × ℚ × Nat) :=
  let cats := df.foldl (fun acc tx => if tx.category ∈ acc then acc else acc ++ [tx.category]) []
  cats.map (fun c =>
    let g := df.filter (fun tx => decide (tx.category = c))
    (c, (g.map Transaction.amount).sum, g.length))

/-- `total_expenses = category_totals['total'].sum()`: grand total of
the per-category totals. -/
def spendingTotal (df : List Transaction) : ℚ :=
  ((categoryRows df).map (fun r => r.2.1)).sum

/-- `category_totals['percentage'] = (total / total_expenses * 100).round(2)`:
attach the rounded percentage to one grouped row. -/
def pctRow (total_expenses : ℚ) (r : String × ℚ × Nat) : CatRow :=
  CatRow.mk r.1 r.2.1 r.2.2 (round2 (r.2.1 / total_expenses * 100))

/-- The non-empty branch of `get_spending_by_category`: attach
percentages and `sort_values('total', ascending=False)`. -/
def spendingRows (df : List Transaction) : List CatRow :=
  List.insertionSort (fun a b => b.total ≤ a.total)
    ((categoryRows df).map (pctRow (spendingTotal df)))

/-- `TransactionManager.get_spending_by_category`: expense-only filter,
group by category, percentage of the grand total rounded to 2 decimals,
sorted by total descending; empty frame on no expense data. -/
def get_spending_by_category (txs : List Transaction)
    (start_date end_date : Option Date) : List CatRow :=
  if (get_transactions txs (some "expense") none start_date end_date 999999).length = 0 then []
  else spendingRows (get_transactions txs (some "expense") none start_date end_date 999999)

/-- Human-readable description attached to the automatic expense record
of `add_investment` (its exact text plays no role in any claim). -/
def investment_description (quantity purchase_price : ℚ) (symbol : String) : String :=
  s!"Purchased {quantity} shares of {symbol} at {purchase_price}"

/-- `TransactionManager.add_investment`: validate the optional date,
normalize the symbol to uppercase/trimmed, compute
`total_cost = quantity * purchase_price`, assign id
`len(self.investments) + 1`, append the lot, and append the automatic
expense transaction (category `"Investment Purchase"`, amount
`total_cost`, the same purchase date).  The boolean is `true` on the
success message and `false` on the caught-and-stringified error path.
The source performs no check at all on `quantity` or `purchase_price`. -/
def add_investment (st : State) (symbol : String) (quantity purchase_price : ℚ)
    (purchase_date : Option String) (today : Date) : State × Bool :=
  match resolveDate purchase_date today with
  | none => (st, false)
  | some pd =>
    let sym := strip (upper symbol)
    let total_cost := quantity * purchase_price
    let inv : Investment := ⟨st.investments.length + 1, sym, quantity, purchase_price, pd, total_cost⟩
    let invs := st.investments ++ [inv]
    let txs := (add_transaction_validated st.transactions "expense" "Investment Purchase"
        total_cost (investment_description quantity purchase_price sym) pd "Cash").1
    (⟨txs, invs⟩, true)

/-- One row of the portfolio-valuation `holdings` list. -/
structure Holding where
  symbol : String
  quantity : ℚ
  avg_purchase_price : ℚ
  current_price : ℚ
  total_cost : ℚ
  current_value : ℚ
  gain_loss : ℚ
  gain_loss_percent : ℚ
deriving DecidableEq, Repr

/-- The `get_portfolio_value` result record. -/
structure PortfolioValue where
  total_invested : ℚ
  current_value : ℚ
  total_gain_loss : ℚ
  total_gain_loss_percent : ℚ
  holdings : List Holding
deriving DecidableEq, Repr

/-- The symbols of the `groupby('symbol')` frame, one per distinct
stored symbol. -/
def distinctSymbols (invs : List Investment) : List String :=
  invs.foldl (fun acc inv => if inv.symbol ∈ acc then acc else acc ++ [inv.symbol]) []

/-- Per-symbol valuation row.  `fetch` embeds the Price Provider: it
returns the `currentPrice or regularMarketPrice` chain, with `none`
standing for a missing price or a raised exception.  A missing or zero
price falls back to the average purchase price, exactly as the
`if not current_price or current_price == 0` / `except` branches do. -/
def holdingFor (invs : List Investment) (fetch : String → Option ℚ) (sym : String) : Holding :=
  let lots := invs.filter (fun inv => decide (inv.symbol = sym))
  let quantity := (lots.map Investment.quantity).sum
  let cost := (lots.map Investment.total_cost).sum
  let avg_purchase_price := cost / quantity
  let current_price :=
    match fetch sym with
    | none => avg_purchase_price
    | some p => if p = 0 then avg_purchase_price else p
  let value := quantity * current_price
  let gain_loss := value - cost
  let gain_loss_percent := if 0 < cost then gain_loss / cost * 100 else 0
  ⟨sym, quantity, avg_purchase_price, current_price, cost, value, gain_loss, gain_loss_percent⟩

/-- `TransactionManager.get_portfolio_value`: all-zero result on an
empty store, otherwise one holding per distinct symbol with the running
totals accumulated across holdings. -/
def get_portfolio_value (invs : List Investment) (fetch : String → Option ℚ) :
    PortfolioValue :=
  if invs.length = 0 then ⟨0, 0, 0, 0, []⟩
  else
    let holdings := (distinctSymbols invs).map (holdingFor invs fetch)
    let total_invested := (holdings.map Holding.total_cost).sum
    let current_value := (holdings.map Holding.current_value).sum
    let total_gain_loss := current_value - total_invested
    let total_gain_loss_percent :=
      if 0 < total_invested then total_gain_loss / total_invested * 100 else 0
    ⟨total_invested, current_value, total_gain_loss, total_gain_loss_percent, holdings⟩

/-- The `delete_investment` tool of `finance_agent.py`: normalize the
symbol, drop every lot bearing it, and report how many rows were
dropped.  The transaction store is not touched at all. -/
def delete_investment (st : State) (symbol : String) : State × Nat :=
  let sym := strip (upper symbol)
  let remaining := st.investments.filter (fun inv => decide (inv.symbol ≠ sym))
  (⟨st.transactions, remaining⟩, st.investments.length - remaining.length)

/-- The mutating operations a caller can issue against the manager. -/
inductive Op where
  | addTx (transaction_type category : String) (amount : ℚ) (description : String)
      (date : Option String) (today : Date) (payment_method : String)
  | delTx (tid : Nat)
  | addInv (symbol : String) (quantity purchase_price : ℚ)
      (purchase_date : Option String) (today : Date)
  | delInv (symbol : String)

/-- Effect of one operation on the in-memory state. -/
def applyOp (st : State) : Op → State
  | .addTx ty c a descr dIn today pm =>
    { st with transactions := (add_transaction st.transactions ty c a descr dIn today pm).1 }
  | .delTx tid =>
    { st with transactions := (delete_transaction st.transactions tid).1 }
  | .addInv sym q p dIn today => (add_investment st sym q p dIn today).1
  | .delInv sym => (delete_investment st sym).1

/-- The state reached from a fresh manager by a sequence of operations. -/
def runOps (ops : List Op) : State := ops.foldl applyOp initialState

/-! ### Helper lemmas -/

/-- Behavior of the `strptime` embedding at the delicate boundary
inputs: single-digit and space-padded day forms accepted, short or zero
years and a space-padded month rejected, calendar day range enforced. -/
theorem parseDate_boundary_inputs :
    parseDate "2024-01-15" = some ⟨2024, 1, 15⟩ ∧
    parseDate "2024-1-5" = some ⟨2024, 1, 5⟩ ∧
    parseDate "2024-01- 5" = some ⟨2024, 1, 5⟩ ∧
    parseDate "999-12-31" = none ∧
    parseDate "0000-01-01" = none ∧
    parseDate "2023-02-29" = none ∧
    parseDate "2024-02-29" = some ⟨2024, 2, 29⟩ ∧
    parseDate "2024-01-00" = none ∧
    parseDate "2024-13-01" = none ∧
    parseDate "2024- 1-05" = none := by decide

/-- Fixed "current date" used by the concrete instances below. -/
def witnessToday : Date := ⟨2024, 6, 1⟩

/-- Every row of the store after `add_transaction` is either an old row
or the freshly appended row, whose amount is `|amount|`. -/
theorem mem_add_transaction_fst (txs : List Transaction) (ty c : String) (a : ℚ)
    (descr : String) (dIn : Option String) (today : Date) (pm : String) :
    ∀ tx ∈ (add_transaction txs ty c a descr dIn today pm).1, tx ∈ txs ∨ tx.amount = |a| := by
  intro tx htx
  unfold add_transaction at htx
  by_cases hty : lower ty = "income" ∨ lower ty = "expense"
  · rw [if_pos hty] at htx
    cases hdt : resolveDate dIn today with
    | none => rw [hdt] at htx; exact Or.inl htx
    | some dt =>
      rw [hdt] at htx
      simp only [add_transaction_validated, List.mem_append, List.mem_singleton] at htx
      rcases htx with h | h
      · exact Or.inl h
      · right; rw [h]
  · rw [if_neg hty] at htx; exact Or.inl htx

/-- C10: whenever `add_transaction` is given a type outside
{income, expense} after lowercasing, or a date string `strptime` rejects,
it returns an error result and the in-memory transaction store is
unchanged — no record is appended, so the next assigned id
(`len(store) + 1`) is unaffected. -/
theorem add_transaction_error_frame (txs : List Transaction) (ty c : String) (a : ℚ)
    (descr : String) (dIn : Option String) (today : Date) (pm : String)
    (h : (lower ty ≠ "income" ∧ lower ty ≠ "expense") ∨
         (∃ s, dIn = some s ∧ parseDate s = none)) :
    (add_transaction txs ty c a descr dIn today pm).1 = txs ∧
    (add_transaction txs ty c a descr dIn today pm).2.isOk = false := by
  rcases h with ⟨h1, h2⟩ | ⟨s, rfl, hs⟩
  · have hne : ¬(lower ty = "income" ∨ lower ty = "expense") := by
      rintro (h | h)
      · exact h1 h
      · exact h2 h
    simp only [add_transaction]
    rw [if_neg hne]
    exact ⟨rfl, rfl⟩
  · by_cases hty : lower ty = "income" ∨ lower ty = "expense"
    · simp only [add_transaction]
      rw [if_pos hty]
      simp [resolveDate, hs, Except.isOk, Except.toBool]
    · simp only [add_transaction]
      rw [if_neg hty]
      exact ⟨rfl, rfl⟩

/-- Element-wise characterization of the `foldl` that collects the
distinct symbols of the `groupby` step. -/
theorem mem_foldl_distinct {α : Type} [DecidableEq α] (f : Investment → α) :
    ∀ (l : List Investment) (acc : List α) (x : α),
      (x ∈ l.foldl (fun acc inv => if f inv ∈ acc then acc else acc ++ [f inv]) acc ↔
        x ∈ acc ∨ x ∈ l.map f)
  | [], acc, x => by simp
  | inv :: l, acc, x => by
    simp only [List.foldl_cons, List.map_cons, List.mem_cons]
    by_cases h : f inv ∈ acc
    · rw [if_pos h, mem_foldl_distinct f l acc x]
      constructor
      · rintro (hx | hx)
        · exact Or.inl hx
        · exact Or.inr (Or.inr hx)
      · rintro (hx | hx | hx)
        · exact Or.inl hx
        · exact Or.inl (hx ▸ h)
        · exact Or.inr hx
    · rw [if_neg h, mem_foldl_distinct f l (acc ++ [f inv]) x]
      simp only [List.mem_append, List.mem_singleton]
      tauto

/-- Witness for C10 at a concrete input: type `"transfer"` is rejected
with the store untouched, likewise the unparseable date `"not-a-date"`. -/
theorem add_transaction_error_frame_witness :
    (add_transaction [] "transfer" "Food" 5 "" none witnessToday "Cash").1 = [] ∧
    (add_transaction [] "transfer" "Food" 5 "" none witnessToday "Cash").2.isOk = false ∧
    (add_transaction [] "expense" "Food" 5 "" (some "not-a-date") witnessToday "Cash").1 = [] ∧
    (add_transaction [] "expense" "Food" 5 "" (some "not-a-date") witnessToday "Cash").2.isOk = false := by
  refine ⟨?_, ?_, ?_, ?_⟩
  · exact (add_transaction_error_frame [] "transfer" "Food" 5 "" none witnessToday "Cash"
      (Or.inl (by decide))).1
  · exact (add_transaction_error_frame [] "transfer" "Food" 5 "" none witnessToday "Cash"
      (Or.inl (by decide))).2
  · exact (add_transaction_error_frame [] "expense" "Food" 5 "" (some "not-a-date") witnessToday
      "Cash" (Or.inr ⟨"not-a-date", rfl, by decide⟩)).1
  · exact (add_transaction_error_frame [] "expense" "Food" 5 "" (some "not-a-date") witnessToday
      "Cash" (Or.inr ⟨"not-a-date", rfl, by decide⟩)).2

/-- C1: a valid `add_investment` call (parseable or defaulted date,
positive quantity and price) always appends exactly one new transaction
to the transaction store: an expense of amount
`quantity * purchase_price`, category `"Investment Purchase"`, dated on
the purchase date. -/
theorem add_investment_expense_side_effect (st : State) (symbol : String)
    (quantity purchase_price : ℚ) (purchase_date : Option String) (today pd : Date)
    (hdate : resolveDate purchase_date today = some pd)
    (hq : 0 < quantity) (hp : 0 < purchase_price) :
    (add_investment st symbol quantity purchase_price purchase_date today).2 = true ∧
    (add_investment st symbol quantity purchase_price purchase_date today).1.transactions =
      st.transactions ++
        [⟨st.transactions.length + 1, pd, "expense", "Investment Purchase",
          quantity * purchase_price,
          investment_description quantity purchase_price (strip (upper symbol)), "Cash"⟩] := by
  have habs : |quantity * purchase_price| = quantity * purchase_price :=
    abs_of_pos (mul_pos hq hp)
  constructor
  · simp only [add_investment, hdate]
  · simp only [add_investment, hdate, add_transaction_validated, habs]

/-- Witness for C1: buying 10 shares at 5 on 2024-01-15 from a fresh
store appends the single expense record of amount `10 * 5`. -/
theorem add_investment_expense_side_effect_witness :
    (add_investment initialState "aapl" 10 5 (some "2024-01-15") witnessToday).2 = true ∧
    (add_investment initialState "aapl" 10 5 (some "2024-01-15") witnessToday).1.transactions =
      initialState.transactions ++
        [⟨initialState.transactions.length + 1, ⟨2024, 1, 15⟩, "expense", "Investment Purchase",
          10 * 5, investment_description 10 5 (strip (upper "aapl")), "Cash"⟩] :=
  add_investment_expense_side_effect initialState "aapl" 10 5 (some "2024-01-15") witnessToday
    ⟨2024, 1, 15⟩ (by decide) (by norm_num) (by norm_num)

/-- C2 (code bug): `add_investment` performs no validation of
`quantity` or `purchase_price` at all, so a non-positive quantity is
accepted: with `quantity = -5`, `purchase_price = 10` the call reports
success and the lot is recorded, where the claim (and §4.2 of the spec)
demand a `ValidationError` and no recorded lot. -/
theorem add_investment_accepts_nonpositive_quantity :
    (add_investment initialState "AAPL" (-5) 10 (some "2024-01-15") witnessToday).2 = true ∧
    ((add_investment initialState "AAPL" (-5) 10 (some "2024-01-15")
        witnessToday).1.investments.map Investment.quantity) = [-5] ∧
    (add_investment initialState "AAPL" (-5) 10 (some "2024-01-15")
        witnessToday).1.investments.length = 1 :=
  ⟨rfl, rfl, rfl⟩

/-- C9: `delete_investment` removes exactly the lots bearing the
normalized symbol, returns how many were removed, and leaves the
transaction store completely unchanged (the purchase-time expense
transactions are not reversed). -/
theorem delete_investment_frame (st : State) (symbol : String) :
    (delete_investment st symbol).1.transactions = st.transactions ∧
    (∀ inv ∈ (delete_investment st symbol).1.investments,
      inv ∈ st.investments ∧ inv.symbol ≠ strip (upper symbol)) ∧
    (∀ inv ∈ st.investments, inv.symbol ≠ strip (upper symbol) →
      inv ∈ (delete_investment st symbol).1.investments) ∧
    (delete_investment st symbol).2 =
      (st.investments.filter
        (fun inv => decide (inv.symbol = strip (upper symbol)))).length := by
  refine ⟨rfl, ?_, ?_, ?_⟩
  · intro inv hinv
    simp only [delete_investment, List.mem_filter, decide_eq_true_eq] at hinv
    exact hinv
  · intro inv hinv hne
    simp only [delete_investment, List.mem_filter, decide_eq_true_eq]
    exact ⟨hinv, hne⟩
  · show st.investments.length -
        (st.investments.filter (fun inv => decide (inv.symbol ≠ strip (upper symbol)))).length = _
    have hsplit := List.length_eq_length_filter_add
      (l := st.investments) (fun inv => decide (inv.symbol = strip (upper symbol)))
    have hnot : (st.investments.filter
          (fun inv => !decide (inv.symbol = strip (upper symbol)))) =
        (st.investments.filter (fun inv => decide (inv.symbol ≠ strip (upper symbol)))) := by
      congr 1
      funext inv
      simp [decide_not]
    rw [hnot] at hsplit
    omega

/-- Concrete two-symbol store used by the C9 witness. -/
def sampleState : State :=
  ⟨[⟨1, ⟨2024, 1, 15⟩, "expense", "Investment Purchase", 50, "", "Cash"⟩],
   [⟨1, "AAPL", 10, 5, ⟨2024, 1, 15⟩, 50⟩, ⟨2, "MSFT", 1, 7, ⟨2024, 1, 16⟩, 7⟩]⟩

/-- Witness for C9 at a concrete two-symbol store: the `" aapl "` form
normalizes to `"AAPL"`, exactly the AAPL lot goes away, the MSFT lot and
the transaction store stay. -/
theorem delete_investment_frame_witness :
    (delete_investment sampleState " aapl ").1.transactions = sampleState.transactions ∧
    (∀ inv ∈ (delete_investment sampleState " aapl ").1.investments,
      inv ∈ sampleState.investments ∧ inv.symbol ≠ strip (upper " aapl ")) ∧
    (delete_investment sampleState " aapl ").2 =
      (sampleState.investments.filter
        (fun inv => decide (inv.symbol = strip (upper " aapl ")))).length :=
  ⟨(delete_investment_frame sampleState " aapl ").1,
   (delete_investment_frame sampleState " aapl ").2.1,
   (delete_investment_frame sampleState " aapl ").2.2.2⟩

/-- C3 counterexample: on an empty filtered set `get_summary` returns
only the four keys `total_income`, `total_expenses`, `net`,
`transaction_count` — the `income_count` and `expense_count` fields the
claim requires are absent from the result. -/
theorem get_summary_empty_missing_counts :
    get_transactions [] none none none none 999999 = [] ∧
    (get_summary [] none none).lookup "income_count" = none ∧
    (get_summary [] none none).lookup "expense_count" = none :=
  ⟨rfl, rfl, rfl⟩

/-- C3 (amended): on an empty filtered set, `get_summary` returns — and
never errors — exactly the four fields `total_income`, `total_expenses`,
`net` and `transaction_count`, each equal to zero (`income_count` and
`expense_count` are only present on a non-empty filtered set). -/
theorem get_summary_empty_filtered (txs : List Transaction) (s e : Option Date)
    (h : get_transactions txs none none s e 999999 = []) :
    get_summary txs s e =
      [("total_income", 0), ("total_expenses", 0), ("net", 0), ("transaction_count", 0)] := by
  simp [get_summary, h]

/-- Witness for C3 (amended) at the empty store with no date filter. -/
theorem get_summary_empty_filtered_witness :
    get_summary [] none none =
      [("total_income", 0), ("total_expenses", 0), ("net", 0), ("transaction_count", 0)] :=
  get_summary_empty_filtered [] none none rfl

/-- Operation sequence exhibiting id reuse: add two rows, delete id 1,
add again — the new row gets id `len + 1 = 2`, which is already taken. -/
def reuseIdOps : List Op :=
  [.addTx "income" "Salary" 1 "" none witnessToday "Cash",
   .addTx "income" "Salary" 1 "" none witnessToday "Cash",
   .delTx 1,
   .addTx "income" "Salary" 1 "" none witnessToday "Cash"]

/-- C4 (code bug): ids are assigned as `len(self.transactions) + 1`, so
after add, add, delete 1, add the store holds two rows both with id 2 —
the pairwise-distinctness the claim (and the spec's `id` invariant)
requires is violated by the source's own id-generation rule. -/
theorem id_reuse_after_deletion :
    ((runOps reuseIdOps).transactions.map Transaction.id) = [2, 2] ∧
    ¬ ((runOps reuseIdOps).transactions.map Transaction.id).Nodup := by
  refine ⟨rfl, ?_⟩
  intro h
  rw [show ((runOps reuseIdOps).transactions.map Transaction.id) = [2, 2] from rfl] at h
  simp at h

/-- Operation sequence reaching a store with two rows of id 2
(same shape as `reuseIdOps`, with distinct categories). -/
def dupIdOps : List Op :=
  [.addTx "income" "Salary" 1 "" none witnessToday "Cash",
   .addTx "expense" "Food" 1 "" none witnessToday "Cash",
   .delTx 1,
   .addTx "income" "Bonus" 1 "" none witnessToday "Cash"]

/-- C5 counterexample: in the reachable store holding two records of
id 2, `delete_transaction 2` removes both of them — not "exactly that
one record and no other" as the claim states for every store state. -/
theorem delete_transaction_removes_both_duplicates :
    ((runOps dupIdOps).transactions.map Transaction.id) = [2, 2] ∧
    (runOps dupIdOps).transactions.length = 2 ∧
    (delete_transaction (runOps dupIdOps).transactions 2).1 = [] :=
  ⟨rfl, rfl, rfl⟩

/-- Under pairwise-distinct ids, filtering out one present id shrinks
the store by exactly one row. -/
theorem length_filter_ne_id (tid : Nat) :
    ∀ txs : List Transaction, (txs.map Transaction.id).Nodup →
      (∃ tx ∈ txs, tx.id = tid) →
      (txs.filter (fun tx => decide (tx.id ≠ tid))).length + 1 = txs.length := by
  intro txs
  induction txs with
  | nil => intro _ h; simp at h
  | cons b l ih =>
    intro hnd hex
    simp only [List.map_cons, List.nodup_cons] at hnd
    obtain ⟨hb, hl⟩ := hnd
    by_cases hbid : b.id = tid
    · rw [List.filter_cons_of_neg (by simp [hbid])]
      have hkeep : l.filter (fun tx => decide (tx.id ≠ tid)) = l := by
        rw [List.filter_eq_self]
        intro tx htx
        simp only [decide_eq_true_eq]
        intro he
        exact hb (by rw [hbid, ← he]; exact List.mem_map_of_mem Transaction.id htx)
      rw [hkeep]
      simp
    · rw [List.filter_cons_of_pos (by simp [hbid])]
      obtain ⟨tx, htx, hid⟩ := hex
      rcases List.mem_cons.mp htx with rfl | htxl
      · exact absurd hid hbid
      · have := ih hl ⟨tx, htxl, hid⟩
        simp only [List.length_cons]
        omega

/-- C5 (amended): in a store whose ids are pairwise distinct — e.g. any
store reached without deletions — `delete_transaction` deletes exactly
the present record with the given id and reports success, and on a
missing id leaves the store unchanged and reports failure (never an
exception; in general the source removes every row bearing the id, see
the counterexample). -/
theorem delete_transaction_correct (txs : List Transaction) (tid : Nat)
    (hnd : (txs.map Transaction.id).Nodup) :
    ((∃ tx ∈ txs, tx.id = tid) →
      (delete_transaction txs tid).2 = true ∧
      (delete_transaction txs tid).1.length + 1 = txs.length ∧
      (∀ tx ∈ txs, tx.id ≠ tid → tx ∈ (delete_transaction txs tid).1) ∧
      (∀ tx ∈ (delete_transaction txs tid).1, tx ∈ txs ∧ tx.id ≠ tid)) ∧
    ((∀ tx ∈ txs, tx.id ≠ tid) →
      (delete_transaction txs tid).1 = txs ∧ (delete_transaction txs tid).2 = false) := by
  constructor
  · intro hex
    have hlen := length_filter_ne_id tid txs hnd hex
    refine ⟨?_, hlen, ?_, ?_⟩
    · show decide ((txs.filter (fun tx => decide (tx.id ≠ tid))).length < txs.length) = true
      rw [decide_eq_true_eq]
      omega
    · intro tx htx hne
      exact List.mem_filter.mpr ⟨htx, by simpa using hne⟩
    · intro tx htx
      have h := List.mem_filter.mp htx
      simpa using h
  · intro hall
    have hfe : txs.filter (fun tx => decide (tx.id ≠ tid)) = txs :=
      List.filter_eq_self.mpr (fun tx htx => by simpa using hall tx htx)
    refine ⟨hfe, ?_⟩
    show decide ((txs.filter (fun tx => decide (tx.id ≠ tid))).length < txs.length) = false
    rw [decide_eq_false_iff_not, hfe]
    omega

/-- Concrete distinct-id store used by the C5 witness. -/
def sampleTxs : List Transaction :=
  [⟨1, ⟨2024, 1, 15⟩, "income", "Salary", 3, "", "Cash"⟩,
   ⟨2, ⟨2024, 1, 16⟩, "expense", "Food", 1, "", "Cash"⟩]

/-- Witness for C5 (amended) at a concrete two-row store with distinct
ids. -/
theorem delete_transaction_correct_witness :
    ((∃ tx ∈ sampleTxs, tx.id = 1) →
      (delete_transaction sampleTxs 1).2 = true ∧
      (delete_transaction sampleTxs 1).1.length + 1 = sampleTxs.length ∧
      (∀ tx ∈ sampleTxs, tx.id ≠ 1 → tx ∈ (delete_transaction sampleTxs 1).1) ∧
      (∀ tx ∈ (delete_transaction sampleTxs 1).1, tx ∈ sampleTxs ∧ tx.id ≠ 1)) ∧
    ((∀ tx ∈ sampleTxs, tx.id ≠ 1) →
      (delete_transaction sampleTxs 1).1 = sampleTxs ∧
      (delete_transaction sampleTxs 1).2 = false) :=
  delete_transaction_correct sampleTxs 1 (by decide)

/-- Every row of the transaction store after `add_investment` is an old
row or the automatic expense row, whose amount is `|q * p|`. -/
theorem mem_add_investment_transactions (st : State) (sym : String) (q p : ℚ)
    (dIn : Option String) (today : Date) :
    ∀ tx ∈ (add_investment st sym q p dIn today).1.transactions,
      tx ∈ st.transactions ∨ tx.amount = |q * p| := by
  intro tx htx
  unfold add_investment at htx
  cases hdt : resolveDate dIn today with
  | none => rw [hdt] at htx; exact Or.inl htx
  | some pd =>
    rw [hdt] at htx
    simp only [add_transaction_validated, List.mem_append, List.mem_singleton] at htx
    rcases htx with h | h
    · exact Or.inl h
    · right; rw [h]

/-- Amount non-negativity is preserved by every single operation. -/
theorem applyOp_amount_nonneg (st : State) (op : Op)
    (h : ∀ tx ∈ st.transactions, 0 ≤ tx.amount) :
    ∀ tx ∈ (applyOp st op).transactions, 0 ≤ tx.amount := by
  cases op with
  | addTx ty c a descr dIn today pm =>
    intro tx htx
    rcases mem_add_transaction_fst st.transactions ty c a descr dIn today pm tx htx with hm | ha
    · exact h tx hm
    · rw [ha]; exact abs_nonneg a
  | delTx tid =>
    intro tx htx
    exact h tx (List.mem_of_mem_filter htx)
  | addInv sym q p dIn today =>
    intro tx htx
    rcases mem_add_investment_transactions st sym q p dIn today tx htx with hm | ha
    · exact h tx hm
    · rw [ha]; exact abs_nonneg (q * p)
  | delInv sym =>
    intro tx htx
    exact h tx htx

/-- C8: in every state reachable by any operation sequence every stored
amount is non-negative; `add_transaction` coerces the amount to its
absolute value, so calling it with `-x` and with `x` (`x ≥ 0`) is the
same call, and the record it stores has amount `x`. -/
theorem amount_sign_normalization :
    (∀ ops : List Op, ∀ tx ∈ (runOps ops).transactions, 0 ≤ tx.amount) ∧
    (∀ (txs : List Transaction) (ty c descr : String) (dIn : Option String) (today : Date)
        (pm : String) (x : ℚ), 0 ≤ x →
      add_transaction txs ty c (-x) descr dIn today pm =
        add_transaction txs ty c x descr dIn today pm ∧
      ∀ tx ∈ (add_transaction txs ty c x descr dIn today pm).1,
        tx ∈ txs ∨ tx.amount = x) := by
  constructor
  · have key : ∀ (l : List Op) (st : State), (∀ tx ∈ st.transactions, 0 ≤ tx.amount) →
        ∀ tx ∈ (l.foldl applyOp st).transactions, 0 ≤ tx.amount := by
      intro l
      induction l with
      | nil => intro st h; exact h
      | cons op l ih => intro st h; exact ih _ (applyOp_amount_nonneg st op h)
    intro ops
    exact key ops initialState (by intro tx htx; simp [initialState] at htx)
  · intro txs ty c descr dIn today pm x hx
    constructor
    · simp only [add_transaction, add_transaction_validated, abs_neg]
    · intro tx htx
      rcases mem_add_transaction_fst txs ty c x descr dIn today pm tx htx with hm | ha
      · exact Or.inl hm
      · right; rw [ha, abs_of_nonneg hx]

/-- Witness for C8: at `x = 50` the `-50` and `50` calls coincide, the
stored record carries amount `50`, and the concrete reachable state of
`reuseIdOps` satisfies the invariant. -/
theorem amount_sign_normalization_witness :
    add_transaction [] "expense" "Food" (-50) "" none witnessToday "Cash" =
      add_transaction [] "expense" "Food" 50 "" none witnessToday "Cash" ∧
    (∀ tx ∈ (add_transaction [] "expense" "Food" 50 "" none witnessToday "Cash").1,
      tx ∈ ([] : List Transaction) ∨ tx.amount = 50) ∧
    (∀ tx ∈ (runOps reuseIdOps).transactions, 0 ≤ tx.amount) :=
  ⟨(amount_sign_normalization.2 [] "expense" "Food" "" none witnessToday "Cash" 50
      (by norm_num)).1,
   (amount_sign_normalization.2 [] "expense" "Food" "" none witnessToday "Cash" 50
      (by norm_num)).2,
   amount_sign_normalization.1 reuseIdOps⟩

/-- C6: for any symbol present in a store all of whose lots have
positive quantity (the data-model invariant), when the Price Provider
yields no usable price (missing/error, embedded as `none`, or zero) the
valuation still returns, and the symbol's holding carries
`current_price = avg_purchase_price` and `gain_loss = 0`. -/
theorem portfolio_value_price_fallback (invs : List Investment) (fetch : String → Option ℚ)
    (sym : String)
    (hpos : ∀ inv ∈ invs, 0 < inv.quantity)
    (hmem : sym ∈ invs.map Investment.symbol)
    (hfetch : fetch sym = none ∨ fetch sym = some 0) :
    ∃ h ∈ (get_portfolio_value invs fetch).holdings,
      h.symbol = sym ∧ h.current_price = h.avg_purchase_price ∧ h.gain_loss = 0 := by
  obtain ⟨inv0, hinv0, hsym0⟩ := List.mem_map.mp hmem
  have hne : invs.length ≠ 0 := by
    cases invs with
    | nil => simp at hinv0
    | cons a l => simp
  have hlots : inv0 ∈ invs.filter (fun inv => decide (inv.symbol = sym)) :=
    List.mem_filter.mpr ⟨hinv0, by simpa using hsym0⟩
  have hq : 0 <
      ((invs.filter (fun inv => decide (inv.symbol = sym))).map Investment.quantity).sum := by
    apply List.sum_pos
    · intro x hx
      obtain ⟨inv, hinv, rfl⟩ := List.mem_map.mp hx
      exact hpos inv (List.mem_of_mem_filter hinv)
    · intro hnil
      rw [List.map_eq_nil_iff] at hnil
      rw [hnil] at hlots
      simp at hlots
  have hq0 :
      ((invs.filter (fun inv => decide (inv.symbol = sym))).map Investment.quantity).sum ≠ 0 :=
    ne_of_gt hq
  refine ⟨holdingFor invs fetch sym, ?_, rfl, ?_, ?_⟩
  · show _ ∈ (get_portfolio_value invs fetch).holdings
    simp only [get_portfolio_value, if_neg hne]
    exact List.mem_map_of_mem (holdingFor invs fetch)
      ((mem_foldl_distinct Investment.symbol invs [] sym).mpr (Or.inr hmem))
  · show (holdingFor invs fetch sym).current_price =
      (holdingFor invs fetch sym).avg_purchase_price
    simp only [holdingFor]
    rcases hfetch with hf | hf <;> rw [hf] <;> simp
  · show (holdingFor invs fetch sym).gain_loss = 0
    simp only [holdingFor]
    rcases hfetch with hf | hf <;> rw [hf] <;> simp <;> field_simp

/-- Concrete one-lot store used by the C6 witness. -/
def sampleInvs : List Investment := [⟨1, "AAPL", 2, 5, ⟨2024, 1, 15⟩, 10⟩]

/-- Price Provider that is unavailable for every symbol. -/
def noPrice : String → Option ℚ := fun _ => none

/-- Witness for C6: with the provider down for `"AAPL"`, its holding is
valued at the average purchase price with zero gain/loss. -/
theorem portfolio_value_price_fallback_witness :
    ∃ h ∈ (get_portfolio_value sampleInvs noPrice).holdings,
      h.symbol = "AAPL" ∧ h.current_price = h.avg_purchase_price ∧ h.gain_loss = 0 :=
  portfolio_value_price_fallback sampleInvs noPrice "AAPL"
    (by intro inv hinv; simp only [sampleInvs, List.mem_singleton] at hinv; subst hinv; norm_num)
    (by decide) (Or.inl rfl)

instance : IsTrans CatRow (fun a b => b.total ≤ a.total) :=
  ⟨fun _ _ _ hab hbc => le_trans hbc hab⟩

instance : IsTotal CatRow (fun a b => b.total ≤ a.total) :=
  ⟨fun a b => le_total b.total a.total⟩

/-- Rounding to 2 decimals moves a rational by at most `1/200`. -/
theorem abs_round2_sub_le (x : ℚ) : |round2 x - x| ≤ 1 / 200 := by
  have h := abs_sub_round (100 * x)
  rw [abs_sub_comm] at h
  have h2 : round2 x - x = ((round (100 * x) : ℚ) - 100 * x) / 100 := by
    rw [round2, sub_div, mul_div_cancel_left₀ x (show (100 : ℚ) ≠ 0 by norm_num)]
  rw [h2, abs_div, abs_of_pos (show (0 : ℚ) < 100 by norm_num)]
  calc |(round (100 * x) : ℚ) - 100 * x| / 100 ≤ (1 / 2) / 100 := by gcongr
    _ = 1 / 200 := by norm_num

/-- Rounding each list entry to 2 decimals moves the sum by at most
`length / 200`. -/
theorem abs_sum_map_round2_sub (l : List ℚ) :
    |(l.map round2).sum - l.sum| ≤ (l.length : ℚ) / 200 := by
  induction l with
  | nil => simp
  | cons x l ih =>
    simp only [List.map_cons, List.sum_cons, List.length_cons]
    have h1 := abs_round2_sub_le x
    have key : round2 x + (l.map round2).sum - (x + l.sum) =
        (round2 x - x) + ((l.map round2).sum - l.sum) := by ring
    rw [key]
    calc |(round2 x - x) + ((l.map round2).sum - l.sum)|
        ≤ |round2 x - x| + |(l.map round2).sum - l.sum| := abs_add _ _
      _ ≤ 1 / 200 + (l.length : ℚ) / 200 := add_le_add h1 ih
      _ = ((l.length + 1 : ℕ) : ℚ) / 200 := by push_cast; ring

/-- The sorted result frame is sorted by total, descending. -/
theorem spendingRows_sorted (df : List Transaction) :
    List.Sorted (fun a b : CatRow => b.total ≤ a.total) (spendingRows df) :=
  List.sorted_insertionSort _ _

/-- The totals of the result frame sum to the grand total used for the
percentages (sorting only permutes the rows). -/
theorem spendingRows_total_sum (df : List Transaction) :
    ((spendingRows df).map CatRow.total).sum = spendingTotal df := by
  have hperm : (spendingRows df).Perm ((categoryRows df).map (pctRow (spendingTotal df))) :=
    List.perm_insertionSort _ _
  rw [(hperm.map CatRow.total).sum_eq, List.map_map]
  rfl

/-- Each result row's percentage is its total's rounded share of the
grand total. -/
theorem spendingRows_percentage (df : List Transaction) :
    ∀ r ∈ spendingRows df, r.percentage = round2 (r.total / spendingTotal df * 100) := by
  intro r hr
  have hperm : (spendingRows df).Perm ((categoryRows df).map (pctRow (spendingTotal df))) :=
    List.perm_insertionSort _ _
  rw [hperm.mem_iff] at hr
  obtain ⟨row, _, rfl⟩ := List.mem_map.mp hr
  rfl

/-- With a positive grand total the rounded percentages sum to 100 up
to the rounding error, `length / 200`. -/
theorem spendingRows_percentage_sum (df : List Transaction) (hS : 0 < spendingTotal df) :
    |((spendingRows df).map CatRow.percentage).sum - 100| ≤
      ((spendingRows df).length : ℚ) / 200 := by
  have hperm : (spendingRows df).Perm ((categoryRows df).map (pctRow (spendingTotal df))) :=
    List.perm_insertionSort _ _
  have hlen : (spendingRows df).length = (categoryRows df).length := by
    rw [hperm.length_eq, List.length_map]
  have hsum : ((spendingRows df).map CatRow.percentage).sum =
      (((categoryRows df).map (fun r => r.2.1 / spendingTotal df * 100)).map round2).sum := by
    rw [(hperm.map CatRow.percentage).sum_eq, List.map_map, List.map_map]
    rfl
  have hexact :
      ((categoryRows df).map (fun r => r.2.1 / spendingTotal df * 100)).sum = 100 := by
    have hfn : (fun r : String × ℚ × Nat => r.2.1 / spendingTotal df * 100) =
        fun r => r.2.1 * (100 / spendingTotal df) := by
      funext r
      rw [div_mul_eq_mul_div, mul_div_assoc]
    rw [hfn, List.sum_map_mul_right]
    show spendingTotal df * (100 / spendingTotal df) = 100
    rw [mul_comm, div_mul_cancel₀ _ (ne_of_gt hS)]
  calc |((spendingRows df).map CatRow.percentage).sum - 100|
      = |(((categoryRows df).map (fun r => r.2.1 / spendingTotal df * 100)).map round2).sum -
          ((categoryRows df).map (fun r => r.2.1 / spendingTotal df * 100)).sum| := by
        rw [hsum, hexact]
    _ ≤ (((categoryRows df).map (fun r => r.2.1 / spendingTotal df * 100)).length : ℚ) / 200 :=
        abs_sum_map_round2_sub _
    _ = ((spendingRows df).length : ℚ) / 200 := by rw [List.length_map, hlen]

/-- C7 (amended): `get_spending_by_category` is empty on no expense
data; otherwise it is sorted by total descending and each row's
percentage is `round2(total / grand_total * 100)`; whenever the grand
total of the filtered expenses is positive — one expense row alone does
not suffice, since a zero-amount expense is storable — the percentages
sum to 100 up to the rounding epsilon `length / 200`. -/
theorem spending_by_category_spec (txs : List Transaction) (s e : Option Date) :
    (get_transactions txs (some "expense") none s e 999999 = [] →
      get_spending_by_category txs s e = []) ∧
    List.Sorted (fun a b : CatRow => b.total ≤ a.total) (get_spending_by_category txs s e) ∧
    (∀ r ∈ get_spending_by_category txs s e,
      r.percentage =
        round2 (r.total / (((get_spending_by_category txs s e).map CatRow.total).sum) * 100)) ∧
    (0 < ((get_spending_by_category txs s e).map CatRow.total).sum →
      |((get_spending_by_category txs s e).map CatRow.percentage).sum - 100| ≤
        ((get_spending_by_category txs s e).length : ℚ) / 200) := by
  by_cases hdf : (get_transactions txs (some "expense") none s e 999999).length = 0
  · have hres : get_spending_by_category txs s e = [] := by
      rw [get_spending_by_category, if_pos hdf]
    rw [hres]
    refine ⟨fun _ => rfl, List.sorted_nil, ?_, ?_⟩
    · intro r hr
      simp at hr
    · intro h
      simp at h
  · have hres : get_spending_by_category txs s e =
        spendingRows (get_transactions txs (some "expense") none s e 999999) := by
      rw [get_spending_by_category, if_neg hdf]
    rw [hres]
    refine ⟨?_, spendingRows_sorted _, ?_, ?_⟩
    · intro h
      exact absurd (by rw [h]; rfl) hdf
    · intro r hr
      rw [spendingRows_total_sum]
      exact spendingRows_percentage _ r hr
    · intro hS
      rw [spendingRows_total_sum] at hS
      exact spendingRows_percentage_sum _ hS

/-- The single zero-amount expense the C7 counterexample stores. -/
def zeroTx : Transaction := ⟨1, ⟨2024, 6, 1⟩, "expense", "Food", 0, "", "Cash"⟩

/-- C7 counterexample: a store holding one expense of amount 0 has an
expense in the filtered range, yet the percentages sum to 0, not
100 ± epsilon (the source computes `0/0` here — `NaN` in numpy, `0` in
this embedding; either way the sum is not within epsilon of 100). -/
theorem spending_by_category_zero_sum :
    get_transactions [zeroTx] (some "expense") none none none 999999 = [zeroTx] ∧
    get_spending_by_category [zeroTx] none none = [⟨"Food", 0, 1, 0⟩] ∧
    ((get_spending_by_category [zeroTx] none none).map CatRow.percentage).sum = 0 ∧
    ¬ (|((get_spending_by_category [zeroTx] none none).map CatRow.percentage).sum - 100| ≤
        ((get_spending_by_category [zeroTx] none none).length : ℚ) / 200) := by
  have hres : get_spending_by_category [zeroTx] none none = [⟨"Food", 0, 1, 0⟩] := by
    norm_num [get_spending_by_category, spendingRows, categoryRows, spendingTotal, pctRow,
      round2, List.insertionSort, List.orderedInsert, get_transactions, zeroTx]
  refine ⟨rfl, hres, ?_, ?_⟩
  · rw [hres]
    norm_num
  · rw [hres]
    norm_num

/-- Concrete store for the C7 witness: two expense categories with
totals 3 and 1, giving percentages 75 and 25. -/
def sampleExpenses : List Transaction :=
  [⟨1, ⟨2024, 1, 15⟩, "expense", "Food", 1, "", "Cash"⟩,
   ⟨2, ⟨2024, 1, 16⟩, "expense", "Rent", 3, "", "Cash"⟩]

/-- Witness for C7 at the concrete store: the frame is sorted by total
descending and the percentages sum to 100 within `length / 200`. -/
theorem spending_by_category_spec_witness :
    List.Sorted (fun a b : CatRow => b.total ≤ a.total)
      (get_spending_by_category sampleExpenses none none) ∧
    |((get_spending_by_category sampleExpenses none none).map CatRow.percentage).sum - 100| ≤
      ((get_spending_by_category sampleExpenses none none).length : ℚ) / 200 :=
  ⟨(spending_by_category_spec sampleExpenses none none).2.1,
   (spending_by_category_spec sampleExpenses none none).2.2.2 (by
    simp [get_spending_by_category, spendingRows, categoryRows, spendingTotal, pctRow,
      round2, List.insertionSort, List.orderedInsert, get_transactions, sampleExpenses,
      Date.key] <;> norm_num)⟩
